import Mathlib

/-!
Verification of `caf::async::publishing_queue` and its backend
(`src/libcaf_core/caf/async/publishing_queue.hpp`).

The C++ code is shallowly embedded: the shared bounded buffer
`publishing_queue<T>::queue` becomes a structure holding `capacity` and
the vector `buf` as a list; locked mutations become pure state-passing
functions.  The blocking `push` is modelled by its completing iteration:
`none` means the call would block on the condition variable (`cv.wait`),
`some` is the terminating iteration that appends.  `CAF_ASSERT` failures
are modelled as `none`.
-/

namespace CafAsync

/-- Embeds `publishing_queue<T>::queue` (lines 24-62): `capacity` and the
item vector `buf`.  The mutex and condition variable have no pure content;
blocking and wakeups are modelled in the operations below. -/
structure queue (α : Type) where
  capacity : Nat
  buf : List α
deriving DecidableEq

/-- Embeds the constructor `queue(size_t capacity)` (lines 30-32): stores
`capacity` and starts with an empty buffer (`reserve` only preallocates).
Note that the constructor performs no validation of `capacity`. -/
def make_queue (α : Type) (capacity : Nat) : queue α :=
  ⟨capacity, []⟩

/-- Embeds `queue::try_push` (lines 34-46): if `buf` is empty, append and
return `(true, true)`; else if `buf.size() < capacity`, append and return
`(true, false)`; else return `(false, false)`.  The function is total:
`try_push` never blocks.  Result: `((accepted, became_first_item), new state)`. -/
def queue.try_push (q : queue α) (v : α) : (Bool × Bool) × queue α :=
  if q.buf.isEmpty then
    ((true, true), ⟨q.capacity, q.buf ++ [v]⟩)
  else if q.buf.length < q.capacity then
    ((true, false), ⟨q.capacity, q.buf ++ [v]⟩)
  else
    ((false, false), q)

/-- Embeds the blocking `queue::push` (lines 48-61) by one iteration of its
loop body: if `buf` is empty, append and return `true`; else if
`buf.size() < capacity`, append and return `false`; else the caller blocks
on `cv.wait` (`none`).  A completed `push` call is exactly a `some` step
taken at the state the thread observes after its last wakeup. -/
def queue.push (q : queue α) (v : α) : Option (Bool × queue α) :=
  if q.buf.isEmpty then
    some (true, ⟨q.capacity, q.buf ++ [v]⟩)
  else if q.buf.length < q.capacity then
    some (false, ⟨q.capacity, q.buf ++ [v]⟩)
  else
    none

/-- C1 counterexample: the claim says `try_push` returns `(false, false)`
and leaves the buffer unchanged whenever `len(items) = capacity`.  At the
concrete state constructed by `make_queue 0` (capacity `0`, empty buffer)
we have `len(items) = capacity = 0`, yet `try_push 5` takes the empty
branch first: it appends and returns `(true, true)`, not `(false, false)`. -/
theorem try_push_full_clause_fails_at_capacity_zero :
    (make_queue Nat 0).buf.length = (make_queue Nat 0).capacity ∧
    (make_queue Nat 0).try_push 5 ≠ ((false, false), make_queue Nat 0) := by
  constructor
  · rfl
  · decide

/-- C1 (amended): for every buffer state, `try_push` appends and returns
`(true, true)` when the buffer is empty; appends and returns `(true, false)`
when the buffer is non-empty with length strictly below capacity; and
returns `(false, false)` leaving the state unchanged when the buffer is
non-empty with length equal to capacity.  It never blocks (the function is
total). -/
theorem try_push_cases (q : queue α) (v : α) :
    (q.buf = [] → q.try_push v = ((true, true), ⟨q.capacity, q.buf ++ [v]⟩)) ∧
    (q.buf ≠ [] → q.buf.length < q.capacity →
      q.try_push v = ((true, false), ⟨q.capacity, q.buf ++ [v]⟩)) ∧
    (q.buf ≠ [] → q.buf.length = q.capacity →
      q.try_push v = ((false, false), q)) := by
  refine ⟨?_, ?_, ?_⟩
  · intro h
    simp [queue.try_push, h]
  · intro h hlt
    simp [queue.try_push, List.isEmpty_iff, h, hlt]
  · intro h heq
    simp [queue.try_push, List.isEmpty_iff, h, heq]

/-- Witness for `try_push_cases`: all three branches evaluated at concrete
states (capacity 2). -/
theorem try_push_cases_witness :
    (queue.mk 2 ([] : List Nat)).try_push 7 = ((true, true), ⟨2, [7]⟩) ∧
    (queue.mk 2 [1]).try_push 7 = ((true, false), ⟨2, [1, 7]⟩) ∧
    (queue.mk 2 [1, 2]).try_push 7 = ((false, false), ⟨2, [1, 2]⟩) := by
  refine ⟨?_, ?_, ?_⟩
  · exact (try_push_cases (queue.mk 2 ([] : List Nat)) 7).1 rfl
  · exact (try_push_cases (queue.mk 2 [1]) 7).2.1 (by decide) (by decide)
  · exact (try_push_cases (queue.mk 2 [1, 2]) 7).2.2 (by decide) (by decide)

/-- C10: because both push variants test for an empty buffer before testing
the length against the capacity, a queue constructed with capacity `c`
(including `c = 0`) always accepts a first item while empty: `try_push`
returns `(true, true)` and the blocking `push` appends immediately without
blocking.  In particular at `c = 0` the buffer then holds one item more
than its stated capacity. -/
theorem empty_queue_always_accepts (c : Nat) (v : α) :
    (make_queue α c).try_push v = ((true, true), ⟨c, [v]⟩) ∧
    (make_queue α c).push v = some (true, ⟨c, [v]⟩) ∧
    ((make_queue α 0).try_push v).2.buf.length = (make_queue α 0).capacity + 1 := by
  refine ⟨rfl, rfl, rfl⟩

/-- Embeds `publishing_queue<T>` (lines 22-91), the producer handle: a
shared reference to the queue plus the notification handle.  Modelled from
the spec: the notification bridge handle (`caf::async::notifiable`, an
external collaborator whose code is not part of this translation unit) is
represented by the count of `notify_event()` invocations made through it. -/
structure publishing_queue (α : Type) where
  queue_ : queue α
  notify_count : Nat
deriving DecidableEq

/-- Embeds `publishing_queue::try_push` (lines 73-78): delegates to the
queue, invokes `notify_event()` exactly when `do_notify` holds, and
returns the `added` flag. -/
def publishing_queue.try_push (p : publishing_queue α) (v : α) :
    Bool × publishing_queue α :=
  let r := p.queue_.try_push v
  (r.1.1, ⟨r.2, if r.1.2 then p.notify_count + 1 else p.notify_count⟩)

/-- Embeds `publishing_queue::push` (lines 82-86): delegates to the
blocking `queue::push`; when that completes, invokes `notify_event()`
exactly when the returned `do_notify` flag holds.  `none` means the
underlying `queue::push` is still blocked. -/
def publishing_queue.push (p : publishing_queue α) (v : α) :
    Option (publishing_queue α) :=
  match p.queue_.push v with
  | some r => some ⟨r.2, if r.1 then p.notify_count + 1 else p.notify_count⟩
  | none => none

/-- Embeds `caf::detail::publishing_queue_backend<T>` (lines 104-156), the
consumer adapter.  `queue_` is the shared queue (line 155); the remaining
fields are Modelled from the spec: the external base machinery
`flow::buffered_observable_impl` is represented by its outgoing staging
buffer `buf_` (the target of `append_to_buf`), the flag `base_done`
(the value of `super::done()`: no pending demand fulfillment left and
upstream has signaled close), and `aborted` (the terminal error flag set
by `abort`). -/
structure publishing_queue_backend (α ε : Type) where
  queue_ : queue α
  buf_ : List α
  base_done : Bool
  aborted : Option ε
deriving DecidableEq

/-- Embeds `publishing_queue_backend::pull` (lines 143-152):
`CAF_ASSERT(n > 0)` is modelled by returning `none` for `n = 0`.  With
`m = min n (size of the shared buffer)`, if `m > 0` the first `m` items
are appended to the staging buffer `buf_`, erased from the shared buffer,
and `cv.notify_all()` runs (the returned flag records that wake-all);
otherwise nothing happens and no wakeup is issued. -/
def publishing_queue_backend.pull (b : publishing_queue_backend α ε)
    (n : Nat) : Option (publishing_queue_backend α ε × Bool) :=
  if n = 0 then
    none
  else
    let m := min n b.queue_.buf.length
    if 0 < m then
      some (⟨⟨b.queue_.capacity, b.queue_.buf.drop m⟩,
             b.buf_ ++ b.queue_.buf.take m, b.base_done, b.aborted⟩, true)
    else
      some (b, false)

/-- Embeds `publishing_queue_backend::done` (lines 133-140): if
`super::done()` holds, return whether the shared buffer is empty;
otherwise return `false`. -/
def publishing_queue_backend.done (b : publishing_queue_backend α ε) : Bool :=
  if b.base_done then b.queue_.buf.isEmpty else false

/-- C2: for every backend state and every `n > 0`, `pull n` removes
exactly the first `min n (length of the shared buffer)` items, appends
them in FIFO order to the staging buffer, leaves capacity and the rest of
the shared buffer intact, and issues the wake-all if and only if at least
one item was removed. -/
theorem pull_drains_fifo (b : publishing_queue_backend α ε) (n : Nat)
    (h : 0 < n) :
    ∃ b₂ woke, b.pull n = some (b₂, woke) ∧
      b₂.buf_ = b.buf_ ++ b.queue_.buf.take (min n b.queue_.buf.length) ∧
      (b₂.buf_.length - b.buf_.length) = min n b.queue_.buf.length ∧
      b₂.buf_.length - b.buf_.length ≤ n ∧
      b.queue_.buf.take (min n b.queue_.buf.length) ++ b₂.queue_.buf
        = b.queue_.buf ∧
      b₂.queue_.capacity = b.queue_.capacity ∧
      b₂.base_done = b.base_done ∧ b₂.aborted = b.aborted ∧
      (woke = true ↔ 0 < min n b.queue_.buf.length) := by
  have hn : ¬ n = 0 := by omega
  by_cases hm : 0 < min n b.queue_.buf.length
  · refine ⟨⟨⟨b.queue_.capacity, b.queue_.buf.drop (min n b.queue_.buf.length)⟩,
      b.buf_ ++ b.queue_.buf.take (min n b.queue_.buf.length),
      b.base_done, b.aborted⟩, true,
      by simp [publishing_queue_backend.pull, hn, hm],
      rfl, ?_, ?_, List.take_append_drop _ _, rfl, rfl, rfl, by simpa using hm⟩
    · simp only [List.length_append, List.length_take]
      omega
    · simp only [List.length_append, List.length_take]
      omega
  · have hlen : b.queue_.buf.length = 0 := by omega
    have hbuf : b.queue_.buf = [] := List.length_eq_zero.mp hlen
    refine ⟨b, false, ?_⟩
    simp [publishing_queue_backend.pull, hn, hbuf]

/-- Witness for `pull_drains_fifo` at a concrete state: capacity 3,
buffer `[10, 20, 30]`, staging `[1]`, `n = 2`. -/
theorem pull_drains_fifo_witness :
    ∃ b₂ woke,
      (publishing_queue_backend.mk (queue.mk 3 [10, 20, 30]) [1] false
        (none : Option Nat)).pull 2 = some (b₂, woke) ∧
      b₂.buf_ = [1] ++ [10, 20] ∧
      (b₂.buf_.length - 1) = 2 ∧ b₂.buf_.length - 1 ≤ 2 ∧
      [10, 20] ++ b₂.queue_.buf = [10, 20, 30] ∧
      b₂.queue_.capacity = 3 ∧
      b₂.base_done = false ∧ b₂.aborted = none ∧
      (woke = true ↔ (0 : Nat) < 2) := by
  have h := pull_drains_fifo
    (publishing_queue_backend.mk (queue.mk 3 [10, 20, 30]) [1] false
      (none : Option Nat)) 2 (by decide)
  simpa using h

/-- C5: `done()` is `false` whenever the shared buffer is non-empty,
regardless of the base machinery's state, and `done()` is `true` exactly
when the base machinery considers itself finished and the shared buffer
is empty. -/
theorem done_iff_base_done_and_empty (b : publishing_queue_backend α ε) :
    (b.queue_.buf ≠ [] → b.done = false) ∧
    (b.done = true ↔ (b.base_done = true ∧ b.queue_.buf = [])) := by
  constructor
  · intro h
    simp [publishing_queue_backend.done, List.isEmpty_iff, h]
  · cases hd : b.base_done <;>
      simp [publishing_queue_backend.done, List.isEmpty_iff, hd]

/-- Witness for `done_iff_base_done_and_empty` at a concrete state with a
non-empty buffer and `base_done = true`. -/
theorem done_iff_base_done_and_empty_witness :
    (publishing_queue_backend.mk (queue.mk 2 [5]) [] true
      (none : Option Nat)).done = false := by
  exact (done_iff_base_done_and_empty
    (publishing_queue_backend.mk (queue.mk 2 [5]) [] true
      (none : Option Nat))).1 (by decide)

/-- Modelled from the spec: `abort(reason)` of the base machinery
(`flow::buffered_observable_impl`, an external collaborator not part of
this translation unit) — propagates termination with `reason` through the
base machinery: the failure reason becomes the terminal outcome and the
buffered-but-undelivered items of the staging buffer are discarded.
Terminal states are absorbing. -/
def publishing_queue_backend.abort (b : publishing_queue_backend α ε)
    (reason : ε) : publishing_queue_backend α ε :=
  ⟨b.queue_, [], b.base_done, some reason⟩

/-- Embeds `publishing_queue_backend::on_abort` (lines 125-127): delegates
to the base machinery's `abort(reason)`. -/
def publishing_queue_backend.on_abort (b : publishing_queue_backend α ε)
    (reason : ε) : publishing_queue_backend α ε :=
  b.abort reason

/-- Modelled from the spec: the base machinery invokes the adapter's
`pull` only while the adapter is not terminal; once a terminal state is
entered, no further pulls or emissions occur.  `pull_event` is one pull
attempt as scheduled by the base; the returned flag records whether
`pull` — and hence a drain of the shared buffer — actually ran. -/
def publishing_queue_backend.pull_event (b : publishing_queue_backend α ε)
    (n : Nat) : publishing_queue_backend α ε × Bool :=
  if b.aborted.isSome then
    (b, false)
  else
    match b.pull n with
    | some r => (r.1, true)
    | none => (b, false)

/-- C3: the blocking `push`, whenever it completes (appends), produces
exactly the buffer state and first-item flag that `try_push` would have
produced on the same state: `try_push` accepts with the same flag and the
same resulting queue, and the flag is `true` exactly when the buffer was
empty before the append.  Moreover `push` blocks exactly when `try_push`
would reject. -/
theorem push_mirrors_try_push (q : queue α) (v : α) :
    (∀ flag q₂, q.push v = some (flag, q₂) →
      q.try_push v = ((true, flag), q₂) ∧ (flag = true ↔ q.buf = [])) ∧
    (q.push v = none ↔ (q.try_push v).1.1 = false) := by
  by_cases he : q.buf.isEmpty
  · have hnil : q.buf = [] := List.isEmpty_iff.mp he
    refine ⟨?_, ?_⟩
    · intro flag q₂ hp
      rw [queue.push, if_pos he] at hp
      injection hp with hp
      injection hp with h1 h2
      subst h1
      subst h2
      exact ⟨by rw [queue.try_push, if_pos he], by simp [hnil]⟩
    · simp [queue.push, queue.try_push, he]
  · have hne : ¬ q.buf = [] := fun hcon => he (by simp [hcon])
    by_cases hlt : q.buf.length < q.capacity
    · refine ⟨?_, ?_⟩
      · intro flag q₂ hp
        rw [queue.push, if_neg he, if_pos hlt] at hp
        injection hp with hp
        injection hp with h1 h2
        subst h1
        subst h2
        exact ⟨by rw [queue.try_push, if_neg he, if_pos hlt], by simp [hne]⟩
      · simp [queue.push, queue.try_push, he, hlt]
    · refine ⟨?_, ?_⟩
      · intro flag q₂ hp
        rw [queue.push, if_neg he, if_neg hlt] at hp
        exact absurd hp (by simp)
      · simp [queue.push, queue.try_push, he, hlt]

/-- Witness for `push_mirrors_try_push` at a concrete state: capacity 2,
buffer `[4]`, pushing `9` completes with flag `false` and `try_push`
agrees. -/
theorem push_mirrors_try_push_witness :
    (queue.mk 2 [4]).try_push 9 = ((true, false), ⟨2, [4, 9]⟩) ∧
    (false = true ↔ (queue.mk 2 [4]).buf = ([] : List Nat)) := by
  exact (push_mirrors_try_push (queue.mk 2 [4]) 9).1 false ⟨2, [4, 9]⟩ rfl

/-- C4: for every producer-handle call, `notify_event()` fires exactly
once when the underlying buffer operation reports `became_first_item`,
and does not fire otherwise; `try_push` on the handle returns exactly the
buffer's `accepted` flag, and both variants install the buffer state the
queue operation produced. -/
theorem handle_notifies_iff_first_item (p : publishing_queue α) (v : α) :
    ((p.try_push v).1 = (p.queue_.try_push v).1.1 ∧
     (p.try_push v).2.notify_count
       = p.notify_count + (if (p.queue_.try_push v).1.2 then 1 else 0) ∧
     (p.try_push v).2.queue_ = (p.queue_.try_push v).2) ∧
    (∀ p₂, p.push v = some p₂ →
      ∃ flag q₂, p.queue_.push v = some (flag, q₂) ∧
        p₂.notify_count = p.notify_count + (if flag then 1 else 0) ∧
        p₂.queue_ = q₂) := by
  refine ⟨⟨rfl, ?_, rfl⟩, ?_⟩
  · cases hfi : (p.queue_.try_push v).1.2 <;>
      simp [publishing_queue.try_push, hfi]
  · intro p₂ hp
    rw [publishing_queue.push] at hp
    cases hq : p.queue_.push v with
    | none => rw [hq] at hp; exact absurd hp (by simp)
    | some r =>
      rw [hq] at hp
      injection hp with hp
      refine ⟨r.1, r.2, by simp [hq], ?_, ?_⟩ <;>
        cases hr : r.1 <;> simp [← hp, hr]

/-- Witness for `handle_notifies_iff_first_item`: handle over an empty
queue of capacity 1 with 5 prior notifications; pushing one item bumps
the notification count to 6. -/
theorem handle_notifies_iff_first_item_witness :
    ∃ flag q₂, (queue.mk 1 ([] : List Nat)).push 8 = some (flag, q₂) ∧
      (6 : Nat) = 5 + (if flag then 1 else 0) ∧
      (⟨⟨1, [8]⟩, 6⟩ : publishing_queue Nat).queue_ = q₂ := by
  exact (handle_notifies_iff_first_item
    (⟨queue.mk 1 [], 5⟩ : publishing_queue Nat) 8).2 ⟨⟨1, [8]⟩, 6⟩ rfl

/-- C8: `on_abort(reason)` immediately propagates termination with that
reason through the base machinery, discards the buffered-but-undelivered
items of the staging buffer, and afterwards no pull ever runs: every
future pull attempt leaves the state unchanged and reports that no drain
of the shared buffer occurred. -/
theorem on_abort_terminal_no_more_pulls (b : publishing_queue_backend α ε)
    (reason : ε) :
    (b.on_abort reason).aborted = some reason ∧
    (b.on_abort reason).buf_ = [] ∧
    (∀ n, (b.on_abort reason).pull_event n = (b.on_abort reason, false)) := by
  refine ⟨rfl, rfl, fun n => ?_⟩
  simp [publishing_queue_backend.pull_event, publishing_queue_backend.on_abort,
    publishing_queue_backend.abort]

/-- C9 counterexample: the claim says constructing a buffer with zero
capacity is a contract violation caught at the construction boundary.
The embedded constructor (lines 30-32) contains no such check: at the
concrete input `capacity = 0`, `make_queue` succeeds, yields an ordinary
queue state, and that queue even accepts a push. -/
theorem make_queue_zero_not_rejected :
    make_queue Nat 0 = ⟨0, []⟩ ∧
    ((make_queue Nat 0).try_push 3).1.1 = true :=
  ⟨rfl, rfl⟩

/-- C9 (amended): the `pull` misuse condition is caught at the call
boundary — `CAF_ASSERT(n > 0)` rejects `n = 0` — but zero capacity is not
caught at construction: the constructor stores any capacity, including
`0`, without validation. -/
theorem misuse_condition_checks (b : publishing_queue_backend α ε) (c : Nat) :
    b.pull 0 = none ∧ make_queue α c = ⟨c, []⟩ :=
  ⟨rfl, rfl⟩

/-- The length invariant of the spec, as a decidable check on a queue
state: `0 ≤ len(items) ≤ capacity` (the lower bound is automatic for
natural numbers). -/
def queue.len_invariant (q : queue α) : Bool :=
  decide (q.buf.length ≤ q.capacity)

/-- C7: given capacity ≥ 1, every buffer operation preserves the length
invariant `0 ≤ len(items) ≤ capacity`: `try_push`, a completing blocking
`push`, and the backend's `pull` each map a state satisfying the
invariant to a state satisfying it. -/
theorem ops_preserve_len_invariant (q : queue α) (v : α)
    (b : publishing_queue_backend α ε) (n : Nat)
    (hc : 1 ≤ q.capacity) (hq : q.len_invariant = true)
    (hb : b.queue_.len_invariant = true) :
    (q.try_push v).2.len_invariant = true ∧
    ((q.push v).all fun r => r.2.len_invariant) = true ∧
    ((b.pull n).all fun r => r.1.queue_.len_invariant) = true := by
  have hq2 : q.buf.length ≤ q.capacity := by
    simpa [queue.len_invariant] using hq
  have hb2 : b.queue_.buf.length ≤ b.queue_.capacity := by
    simpa [queue.len_invariant] using hb
  refine ⟨?_, ?_, ?_⟩
  · rw [queue.try_push]
    split_ifs with h1 h2
    · have h0 : q.buf.length = 0 := by simp [List.isEmpty_iff.mp h1]
      simp [queue.len_invariant]
      omega
    · simp [queue.len_invariant]
      omega
    · simpa [queue.len_invariant] using hq2
  · rw [queue.push]
    split_ifs with h1 h2
    · have h0 : q.buf.length = 0 := by simp [List.isEmpty_iff.mp h1]
      simp [queue.len_invariant]
      omega
    · simp [queue.len_invariant]
      omega
    · rfl
  · simp only [publishing_queue_backend.pull]
    split_ifs with h1 h2
    · rfl
    · simp [queue.len_invariant]
      omega
    · simpa [queue.len_invariant] using hb2

/-- Witness for `ops_preserve_len_invariant`: capacity 2 with one
buffered item for the push variants, and a full capacity-2 queue for the
backend pull. -/
theorem ops_preserve_len_invariant_witness :
    ((queue.mk 2 [1]).try_push 9).2.len_invariant = true ∧
    (((queue.mk 2 [1]).push (9 : Nat)).all fun r => r.2.len_invariant) = true ∧
    (((publishing_queue_backend.mk (queue.mk 2 [1, 2]) [] false
        (none : Option Nat)).pull 1).all
      fun r => r.1.queue_.len_invariant) = true :=
  ops_preserve_len_invariant (queue.mk 2 [1]) 9
    (publishing_queue_backend.mk (queue.mk 2 [1, 2]) [] false none) 1
    (by decide) (by decide) (by decide)

/-- One step of an interleaved producer/consumer run: a non-blocking
`try_push` of a value from the producer side, or a backend pull of up to
`n` items on behalf of downstream demand. -/
inductive buffer_op (α : Type) where
  | push (v : α)
  | drain (n : Nat)
deriving DecidableEq

/-- State of an interleaved run: the backend (its staging buffer `buf_`
accumulates all drained batches in order), the list of values handed to
`try_push` so far, and whether every `try_push` so far reported
`accepted`. -/
structure run_state (α ε : Type) where
  backend : publishing_queue_backend α ε
  pushed : List α
  all_accepted : Bool
deriving DecidableEq

/-- Executes one interleaved operation: `push v` performs
`queue::try_push` on the shared queue and records acceptance; `drain n`
performs `publishing_queue_backend::pull` (a failed `CAF_ASSERT`, i.e.
`n = 0`, leaves the state unchanged). -/
def run_step (s : run_state α ε) : buffer_op α → run_state α ε
  | .push v =>
    let r := s.backend.queue_.try_push v
    ⟨⟨r.2, s.backend.buf_, s.backend.base_done, s.backend.aborted⟩,
      s.pushed ++ [v], s.all_accepted && r.1.1⟩
  | .drain n =>
    match s.backend.pull n with
    | some r => ⟨r.1, s.pushed, s.all_accepted⟩
    | none => s

/-- Executes a sequence of interleaved operations from a given state. -/
def run_ops (s : run_state α ε) : List (buffer_op α) → run_state α ε
  | [] => s
  | op :: rest => run_ops (run_step s op) rest

/-- Decides the precondition of the claim: at the moment of every
`try_push` in the run, the buffer length is strictly below the
capacity. -/
def pushes_below_capacity (s : run_state α ε) : List (buffer_op α) → Bool
  | [] => true
  | op :: rest =>
    (match op with
     | .push _ =>
       decide (s.backend.queue_.buf.length < s.backend.queue_.capacity)
     | .drain _ => true) && pushes_below_capacity (run_step s op) rest

/-- The initial run state: a freshly constructed queue, nothing staged,
nothing pushed, no rejection observed. -/
def init_run (α ε : Type) (capacity : Nat) : run_state α ε :=
  ⟨⟨make_queue α capacity, [], false, none⟩, [], true⟩

theorem try_push_below_capacity (q : queue α) (v : α)
    (h : q.buf.length < q.capacity) :
    q.try_push v = ((true, q.buf.isEmpty), ⟨q.capacity, q.buf ++ [v]⟩) := by
  rw [queue.try_push]
  by_cases he : q.buf.isEmpty
  · rw [if_pos he, he]
  · rw [if_neg he, if_pos h]
    simp [he]

theorem run_ops_fifo_invariant (ops : List (buffer_op α))
    (s : run_state α ε) (hacc : s.all_accepted = true)
    (hinv : s.backend.buf_ ++ s.backend.queue_.buf = s.pushed)
    (hpre : pushes_below_capacity s ops = true) :
    (run_ops s ops).all_accepted = true ∧
    (run_ops s ops).backend.buf_ ++ (run_ops s ops).backend.queue_.buf
      = (run_ops s ops).pushed := by
  induction ops generalizing s with
  | nil => exact ⟨hacc, hinv⟩
  | cons op rest ih =>
    rw [run_ops]
    cases op with
    | push v =>
      simp only [pushes_below_capacity, Bool.and_eq_true,
        decide_eq_true_eq] at hpre
      obtain ⟨hlt, hrest⟩ := hpre
      refine ih (run_step s (buffer_op.push v)) ?_ ?_ hrest
      · simp only [run_step, try_push_below_capacity _ _ hlt]
        simp [hacc]
      · simp only [run_step, try_push_below_capacity _ _ hlt]
        simp [← List.append_assoc, hinv]
    | drain n =>
      simp only [pushes_below_capacity, Bool.true_and] at hpre
      refine ih (run_step s (buffer_op.drain n)) ?_ ?_ hpre
      all_goals by_cases hn : n = 0
      · simpa [run_step, publishing_queue_backend.pull, hn] using hacc
      · simp only [run_step, publishing_queue_backend.pull, if_neg hn]
        by_cases hm : 0 < min n s.backend.queue_.buf.length
        · simp only [if_pos hm]
          exact hacc
        · simp only [if_neg hm]
          exact hacc
      · simpa [run_step, publishing_queue_backend.pull, hn] using hinv
      · simp only [run_step, publishing_queue_backend.pull, if_neg hn]
        by_cases hm : 0 < min n s.backend.queue_.buf.length
        · simp only [if_pos hm]
          rw [List.append_assoc, List.take_append_drop]
          exact hinv
        · simp only [if_neg hm]
          exact hinv

/-- C6: for every capacity and every sequence of interleaved `try_push`
and drain operations on a fresh queue in which the buffer length is
strictly below the capacity at the moment of every push: every
`try_push` returns `accepted`, the concatenation of all drained batches
followed by the items still buffered equals the pushed sequence in FIFO
arrival order, and whenever the run ends with the buffer drained empty,
the concatenation of the drained batches is exactly the pushed
sequence. -/
theorem interleaved_fifo_delivery (capacity : Nat) (ops : List (buffer_op α))
    (hpre : pushes_below_capacity (init_run α ε capacity) ops = true) :
    (run_ops (init_run α ε capacity) ops).all_accepted = true ∧
    (run_ops (init_run α ε capacity) ops).backend.buf_ ++
      (run_ops (init_run α ε capacity) ops).backend.queue_.buf
      = (run_ops (init_run α ε capacity) ops).pushed ∧
    ((run_ops (init_run α ε capacity) ops).backend.queue_.buf = [] →
      (run_ops (init_run α ε capacity) ops).backend.buf_
        = (run_ops (init_run α ε capacity) ops).pushed) := by
  obtain ⟨h1, h2⟩ := run_ops_fifo_invariant ops (init_run α ε capacity)
    rfl rfl hpre
  refine ⟨h1, h2, fun hempty => ?_⟩
  rw [hempty, List.append_nil] at h2
  exact h2

/-- Witness for `interleaved_fifo_delivery`: capacity 2 and the run
push 10, push 20, drain 1, push 30, drain 5 — all pushes are accepted,
the drains deliver `[10, 20, 30]` in order, and the buffer ends empty. -/
theorem interleaved_fifo_delivery_witness :
    (run_ops (init_run Nat Nat 2)
      [buffer_op.push 10, buffer_op.push 20, buffer_op.drain 1,
       buffer_op.push 30, buffer_op.drain 5]).all_accepted = true ∧
    (run_ops (init_run Nat Nat 2)
      [buffer_op.push 10, buffer_op.push 20, buffer_op.drain 1,
       buffer_op.push 30, buffer_op.drain 5]).backend.buf_ ++
      (run_ops (init_run Nat Nat 2)
        [buffer_op.push 10, buffer_op.push 20, buffer_op.drain 1,
         buffer_op.push 30, buffer_op.drain 5]).backend.queue_.buf
      = (run_ops (init_run Nat Nat 2)
          [buffer_op.push 10, buffer_op.push 20, buffer_op.drain 1,
           buffer_op.push 30, buffer_op.drain 5]).pushed ∧
    ((run_ops (init_run Nat Nat 2)
        [buffer_op.push 10, buffer_op.push 20, buffer_op.drain 1,
         buffer_op.push 30, buffer_op.drain 5]).backend.queue_.buf = [] →
      (run_ops (init_run Nat Nat 2)
        [buffer_op.push 10, buffer_op.push 20, buffer_op.drain 1,
         buffer_op.push 30, buffer_op.drain 5]).backend.buf_
        = (run_ops (init_run Nat Nat 2)
            [buffer_op.push 10, buffer_op.push 20, buffer_op.drain 1,
             buffer_op.push 30, buffer_op.drain 5]).pushed) :=
  interleaved_fifo_delivery 2
    [buffer_op.push 10, buffer_op.push 20, buffer_op.drain 1,
     buffer_op.push 30, buffer_op.drain 5] (by decide)

end CafAsync
